import Mathlib

/-!
Verification of the KG-Eval metrics core: a shallow embedding, in Lean 4, of
the data model (`src/kg_eval/data_objects.py`), the semantic-quality engine
(`src/kg_eval/dimensions/semantic_quality.py`) and the structural-integrity
engine (`src/kg_eval/dimensions/structural_integrity.py`), together with
theorems settling the frozen claims about those components.

Modelling conventions:
* Python floats are embedded as exact rationals (`ℚ`); every arithmetic
  expression of the source is translated verbatim over `ℚ`.  The source's
  `round(x, 4)` / `round(x, 6)` calls, applied only when packaging values for
  display, are presentational and omitted.
* Python `None` becomes `Option.none`; `Optional[T]` fields become `Option T`.
* Python dicts keyed by `Relationship` (whose `__hash__`/`__eq__` use the
  `(source_entity_name, target_entity_name, description)` triple) become
  functions out of that key triple, built by the same assignment order as the
  source, so that later assignments overwrite earlier ones exactly as a dict's
  do.
* Calls into external libraries that are out of the repository's scope
  (`networkx.pagerank`, `numpy`'s float `std`/`log2`) are abstracted as
  explicit function parameters; everything the repository itself computes is
  translated concretely.
-/

/-- Decidable equality of `Except` values, used to evaluate the structural
evaluator's fallible result on concrete inputs. -/
instance {ε α : Type} [DecidableEq ε] [DecidableEq α] : DecidableEq (Except ε α) := fun x y =>
  match x, y with
  | .ok a, .ok b =>
    if h : a = b then .isTrue (by rw [h]) else .isFalse (by simp [h])
  | .error a, .error b =>
    if h : a = b then .isTrue (by rw [h]) else .isFalse (by simp [h])
  | .ok _, .error _ => .isFalse (by simp)
  | .error _, .ok _ => .isFalse (by simp)

namespace KGEval

/-- `Entity` of `data_objects.py`: a node of the knowledge graph. -/
structure Entity where
  entity_name : String
  entity_type : Option String
  description : Option String
deriving DecidableEq

/-- `Relationship` of `data_objects.py`: a directed, described edge between two
entity names.  `weight : Optional[float]` is embedded as `Option ℚ`. -/
structure Relationship where
  source_entity_name : String
  target_entity_name : String
  description : String
  keywords : Option (List String)
  weight : Option ℚ
deriving DecidableEq

/-- `SourceText` of `data_objects.py`: a passage with the entity names and the
`(source, target)` edge pairs extracted from it. -/
structure SourceText where
  content : String
  linked_entity_names : List String
  linked_edges : List (String × String)
deriving DecidableEq

/-- `KnowledgeGraph` of `data_objects.py`: the three top-level collections. -/
structure KnowledgeGraph where
  entities : List Entity
  relationships : List Relationship
  source_texts : List SourceText
deriving DecidableEq

/-- The dict key of a `Relationship`: `data_objects.py` defines `__hash__` and
`__eq__` over the `(source_entity_name, target_entity_name, description)`
triple, so a Python dict keyed by relationships identifies exactly this
triple. -/
def relKey (r : Relationship) : String × String × String :=
  (r.source_entity_name, r.target_entity_name, r.description)

/-- The `(source_entity_name, target_entity_name)` pair of a relationship. -/
def relPair (r : Relationship) : String × String :=
  (r.source_entity_name, r.target_entity_name)

/-! ## Semantic quality (`dimensions/semantic_quality.py`) -/

/-- Unit-cost Levenshtein edit distance, the semantics of the
`Levenshtein.distance` call in `_calculate_string_similarity`. -/
def levenshtein : List Char → List Char → Nat
  | [], ys => ys.length
  | x :: xs, [] => (x :: xs).length
  | x :: xs, y :: ys =>
    if x = y then levenshtein xs ys
    else 1 + min (levenshtein xs (y :: ys))
            (min (levenshtein (x :: xs) ys) (levenshtein xs ys))
termination_by xs ys => xs.length + ys.length

/-- The normalisation applied inside `_calculate_string_similarity`:
`str.lower().strip()`, over the string's character list (lower-casing per
character and trimming whitespace from both ends). -/
def normalized (s : String) : List Char :=
  (((s.data.map Char.toLower).dropWhile Char.isWhitespace).reverse.dropWhile
      Char.isWhitespace).reverse

namespace SemanticQualityEvaluator

/-- `SemanticQualityEvaluator._calculate_string_similarity`: 0.0 when either
raw input is empty, 1.0 on equal normalised strings, otherwise
`max 0 (1 - distance / max_len)`. -/
def calculate_string_similarity (str1 str2 : String) : ℚ :=
  if str1 = "" ∨ str2 = "" then 0
  else
    let str1_norm := normalized str1
    let str2_norm := normalized str2
    if str1_norm = str2_norm then 1
    else
      let max_len := max str1_norm.length str2_norm.length
      if max_len = 0 then 1
      else max 0 (1 - (levenshtein str1_norm str2_norm : ℚ) / max_len)

/-- The `(i, j)`-ordered (`i < j`) enumeration of name pairs with their
similarity, before any threshold filtering: the pair-discovery order of the
double loop in `_find_potential_aliases`. -/
def discovered_pairs : List String → List (String × String × ℚ)
  | [] => []
  | name1 :: rest =>
    rest.map (fun name2 => (name1, name2, calculate_string_similarity name1 name2))
      ++ discovered_pairs rest

/-- The `alias_pairs` list as built by the double loop of
`_find_potential_aliases`: pairs in discovery order, kept when
`similarity >= self.similarity_threshold`. -/
def pair_scan (threshold : ℚ) : List String → List (String × String × ℚ)
  | [] => []
  | name1 :: rest =>
    (rest.map
        (fun name2 => (name1, name2, calculate_string_similarity name1 name2))).filter
        (fun p => threshold ≤ p.2.2)
      ++ pair_scan threshold rest

/-- The sort relation of `alias_pairs.sort(key=lambda x: x[2], reverse=True)`:
descending by the similarity component. -/
def simGE (a b : String × String × ℚ) : Prop := b.2.2 ≤ a.2.2

instance : DecidableRel simGE := fun a b => inferInstanceAs (Decidable (b.2.2 ≤ a.2.2))

instance : IsTotal (String × String × ℚ) simGE := ⟨fun a b => le_total b.2.2 a.2.2⟩

instance : IsTrans (String × String × ℚ) simGE :=
  ⟨fun _ _ _ h1 h2 => le_trans h2 h1⟩

/-- `SemanticQualityEvaluator._find_potential_aliases`: threshold-filtered
pairs, sorted descending by similarity with Python's stable `list.sort`
(modelled by the stable `insertionSort`). -/
def find_potential_aliases (threshold : ℚ) (entity_names : List String) :
    List (String × String × ℚ) :=
  (pair_scan threshold entity_names).insertionSort simGE

/-- The keys `_calculate_entity_normalization_score` contributes to the
metrics dict. -/
structure NormalizationResult where
  entity_normalization_score : ℚ
  potential_alias_pairs : List (String × String × ℚ)
  alias_pairs_count : Nat
deriving DecidableEq

/-- `SemanticQualityEvaluator._calculate_entity_normalization_score`. -/
def calculate_entity_normalization_score (threshold : ℚ) (kg : KnowledgeGraph) :
    NormalizationResult :=
  if kg.entities.length ≤ 1 then
    { entity_normalization_score := 1
      potential_alias_pairs := []
      alias_pairs_count := 0 }
  else
    let entity_names := kg.entities.map (·.entity_name)
    let alias_pairs := find_potential_aliases threshold entity_names
    let score := max 0 (1 - (alias_pairs.length : ℚ) / kg.entities.length)
    { entity_normalization_score := score
      potential_alias_pairs := alias_pairs.take 10
      alias_pairs_count := alias_pairs.length }

/-- The evaluator's output keys that depend on the LLM referee, as `evaluate`
reports them.  In the referee-absent branch the detail entries are the literal
explanation strings of the source. -/
structure RefereeOutputs where
  factual_precision : Option ℚ
  factual_precision_details : String
  contextual_relevance : Option ℚ
  contextual_relevance_details : String
deriving DecidableEq

/-- The full metrics dict returned by `SemanticQualityEvaluator.evaluate`. -/
structure SemanticMetrics where
  normalization : NormalizationResult
  factual_precision : Option ℚ
  factual_precision_details : String
  contextual_relevance : Option ℚ
  contextual_relevance_details : String
deriving DecidableEq

/-- `SemanticQualityEvaluator.evaluate`.  The referee-backed branch (sampling
plus referee calls, external to this analysis) is abstracted as the function
parameter `refereeResults`; `llm_referee` is `true` exactly when
`self.llm_referee` is set.  The referee-absent branch is translated verbatim:
both referee-dependent metrics are `None` with the explanation string
`"LLM referee not provided"`. -/
def evaluate (threshold : ℚ) (refereeResults : KnowledgeGraph → RefereeOutputs)
    (llm_referee : Bool) (kg : KnowledgeGraph) : SemanticMetrics :=
  let norm := calculate_entity_normalization_score threshold kg
  if llm_referee then
    let r := refereeResults kg
    { normalization := norm
      factual_precision := r.factual_precision
      factual_precision_details := r.factual_precision_details
      contextual_relevance := r.contextual_relevance
      contextual_relevance_details := r.contextual_relevance_details }
  else
    { normalization := norm
      factual_precision := none
      factual_precision_details := "LLM referee not provided"
      contextual_relevance := none
      contextual_relevance_details := "LLM referee not provided" }

/-- The inner relationship loop of `_map_relationships_to_sources`: the first
relationship whose `(source, target)` matches the edge, then `break`. -/
def find_matching_relationship (rels : List Relationship) (e : String × String) :
    Option Relationship :=
  rels.find? (fun r => r.source_entity_name == e.1 && r.target_entity_name == e.2)

/-- `SemanticQualityEvaluator._map_relationships_to_sources`: the
`rel_to_source` dict (keyed by the relationship's `(source, target,
description)` identity) built by iterating source texts, then their linked
edges, assigning `rel_to_source[relationship] = source_text` for the first
matching relationship of each edge.  Later assignments to the same key
overwrite earlier ones, as in a Python dict. -/
def map_relationships_to_sources (kg : KnowledgeGraph) :
    String × String × String → Option SourceText :=
  kg.source_texts.foldl
    (fun acc source_text =>
      source_text.linked_edges.foldl
        (fun acc2 edge =>
          match find_matching_relationship kg.relationships edge with
          | none => acc2
          | some r => fun k => if k = relKey r then some source_text else acc2 k)
        acc)
    (fun _ => none)

end SemanticQualityEvaluator

/-! ## Structural integrity (`dimensions/structural_integrity.py`) -/

/-- The attributes `_build_networkx_graph` stores on an edge: `description`,
`keywords` and `weight=relationship.weight or 1.0`. -/
structure EdgeData where
  description : String
  keywords : Option (List String)
  weight : ℚ
deriving DecidableEq

/-- The Python expression `relationship.weight or 1.0`: `or` takes the
right-hand side when the left is falsy, and a `weight` of `None` or `0.0` is
falsy. -/
def weightOrOne (w : Option ℚ) : ℚ :=
  match w with
  | none => 1
  | some x => if x = 0 then 1 else x

/-- The edge attributes contributed by one relationship in
`_build_networkx_graph`. -/
def relationshipEdgeData (r : Relationship) : EdgeData :=
  { description := r.description
    keywords := r.keywords
    weight := weightOrOne r.weight }

/-- The `networkx.DiGraph` as `_build_networkx_graph` populates it: node names
in insertion order, and one association entry per distinct `(source, target)`
key.  (Node attributes are never read by any metric and are not modelled.) -/
structure DiGraph where
  nodes : List String
  edges : List ((String × String) × EdgeData)
deriving DecidableEq

/-- `networkx` node insertion: adding an already-present node leaves the node
list unchanged. -/
def addNode (ns : List String) (v : String) : List String :=
  if v ∈ ns then ns else ns ++ [v]

/-- `networkx` edge insertion: `add_edge` on an existing `(source, target)` key
overwrites that edge's attributes in place, otherwise appends a new edge. -/
def addEdgeList : List ((String × String) × EdgeData) → String × String → EdgeData →
    List ((String × String) × EdgeData)
  | [], k, d => [(k, d)]
  | (k', d') :: rest, k, d =>
    if k' = k then (k, d) :: rest else (k', d') :: addEdgeList rest k d

/-- Edge lookup in the association list representing the graph's edges. -/
def lookupEdge : List ((String × String) × EdgeData) → String × String → Option EdgeData
  | [], _ => none
  | (k, d) :: rest, q => if k = q then some d else lookupEdge rest q

namespace StructuralIntegrityEvaluator

/-- One `graph.add_edge(...)` call of `_build_networkx_graph`: `add_edge` also
inserts the two endpoint nodes when missing. -/
def addEdge (g : DiGraph) (r : Relationship) : DiGraph :=
  { nodes := addNode (addNode g.nodes r.source_entity_name) r.target_entity_name
    edges := addEdgeList g.edges (r.source_entity_name, r.target_entity_name)
      (relationshipEdgeData r) }

/-- `StructuralIntegrityEvaluator._build_networkx_graph`: add a node per
entity, then an edge per relationship in list order. -/
def build_networkx_graph (kg : KnowledgeGraph) : DiGraph :=
  kg.relationships.foldl addEdge
    { nodes := kg.entities.foldl (fun ns e => addNode ns e.entity_name) []
      edges := [] }

/-- The `mean`/`std`/`max`/`min` entry of the metrics dict. -/
structure CentralityStats where
  mean : ℚ
  std : ℚ
  max : ℚ
  min : ℚ
deriving DecidableEq

/-- The metrics dict of `StructuralIntegrityEvaluator.evaluate`, restricted to
the keys of the empty-graph contract (the keys `_empty_graph_metrics`
returns).  The non-empty branch's additional diagnostic keys
(`networkx_density`, `average_component_size`, `component_size_distribution`,
`top_central_entities`) are not modelled; no claim concerns them. -/
structure StructuralMetrics where
  graph_density : ℚ
  largest_connected_component_ratio : ℚ
  singleton_ratio : ℚ
  connected_components_count : Nat
  average_degree_centrality : ℚ
  pagerank_entropy : ℚ
  centrality_distribution_stats : CentralityStats
deriving DecidableEq

/-- `StructuralIntegrityEvaluator._empty_graph_metrics`. -/
def empty_graph_metrics : StructuralMetrics :=
  { graph_density := 0
    largest_connected_component_ratio := 0
    singleton_ratio := 1
    connected_components_count := 0
    average_degree_centrality := 0
    pagerank_entropy := 0
    centrality_distribution_stats := { mean := 0, std := 0, max := 0, min := 0 } }

/-- The density of `_calculate_graph_density`: relationship count over entity
count of the original `KnowledgeGraph`, 0 when there are no entities. -/
def calculate_graph_density (kg : KnowledgeGraph) : ℚ :=
  if kg.entities.length = 0 then 0
  else (kg.relationships.length : ℚ) / kg.entities.length

/-- Neighbours of `v` in the undirected view of the graph
(`graph.to_undirected()`): every node joined to `v` by an edge in either
direction. -/
def undirectedNeighbors (edges : List ((String × String) × EdgeData)) (v : String) :
    List String :=
  edges.foldr
    (fun e acc =>
      if e.1.1 = v then e.1.2 :: acc else if e.1.2 = v then e.1.1 :: acc else acc)
    []

/-- Iterated neighbourhood growth; with fuel at least the node count it
reaches the whole connected component. -/
def growComponent (edges : List ((String × String) × EdgeData)) :
    Nat → List String → List String
  | 0, comp => comp
  | n + 1, comp =>
    growComponent edges n ((comp ++ comp.flatMap (undirectedNeighbors edges)).dedup)

/-- The connected component of `v` in the undirected view of `g`. -/
def componentOf (g : DiGraph) (v : String) : List String :=
  growComponent g.edges g.nodes.length [v]

/-- `networkx.connected_components` over the undirected view: one component
per node not already covered by an earlier component. -/
def connectedComponents (g : DiGraph) : List (List String) :=
  g.nodes.foldl
    (fun comps v => if comps.any (fun c => c.contains v) then comps
      else comps ++ [componentOf g v])
    []

/-- The connectedness keys of `_calculate_connectedness` that `evaluate`'s
result record models. -/
structure ConnectednessResult where
  largest_connected_component_ratio : ℚ
  singleton_ratio : ℚ
  connected_components_count : Nat
deriving DecidableEq

/-- `StructuralIntegrityEvaluator._calculate_connectedness`: component sizes of
the undirected view; LCC ratio, singleton ratio and component count. -/
def calculate_connectedness (g : DiGraph) : ConnectednessResult :=
  if g.nodes.length = 0 then
    { largest_connected_component_ratio := 0
      singleton_ratio := 1
      connected_components_count := 0 }
  else
    let component_sizes := (connectedComponents g).map List.length
    { largest_connected_component_ratio :=
        ((component_sizes.foldr Nat.max 0 : Nat) : ℚ) / g.nodes.length
      singleton_ratio :=
        (((component_sizes.filter (fun s => s = 1)).length : Nat) : ℚ) / g.nodes.length
      connected_components_count := (connectedComponents g).length }

/-- `networkx` degree of a node in a `DiGraph`: in-degree plus out-degree. -/
def degreeOf (g : DiGraph) (v : String) : Nat :=
  (g.edges.filter (fun e => e.1.1 = v)).length +
    (g.edges.filter (fun e => e.1.2 = v)).length

/-- `networkx.degree_centrality`: degree over `n - 1`. -/
def degree_centrality (g : DiGraph) (v : String) : ℚ :=
  (degreeOf g v : ℚ) / ((g.nodes.length : ℚ) - 1)

/-- Mean of a list of rationals (`numpy.mean`). -/
def listMean (xs : List ℚ) : ℚ := xs.sum / xs.length

/-- Maximum of a list of rationals (`numpy.max` on a non-empty list). -/
def listMax : List ℚ → ℚ
  | [] => 0
  | x :: xs => xs.foldl max x

/-- Minimum of a list of rationals (`numpy.min` on a non-empty list). -/
def listMin : List ℚ → ℚ
  | [] => 0
  | x :: xs => xs.foldl min x

/-- The centrality keys of `_calculate_centrality_distribution` that
`evaluate`'s result record models. -/
structure CentralityResult where
  average_degree_centrality : ℚ
  pagerank_entropy : ℚ
  centrality_distribution_stats : CentralityStats
deriving DecidableEq

/-- The `try`/`except` of `_calculate_centrality_distribution`: the weighted
`nx.pagerank(graph, weight='weight')` result when that call succeeds, the
unweighted `nx.pagerank(graph)` result (success or error) when it raises. -/
def pagerankWithFallback (weighted unweighted : Except String (List ℚ)) :
    Except String (List ℚ) :=
  match weighted with
  | .ok scores => .ok scores
  | .error _ => unweighted

/-- `StructuralIntegrityEvaluator._calculate_centrality_distribution`.  The
two external `nx.pagerank` calls are abstracted as the already-evaluated
outcomes `pagerank_weighted` and `pagerank_unweighted` (each a list of scores
in node order, or an error for a raised exception); the external float
computations Shannon entropy and `numpy.std` are abstracted as the function
parameters `entropyOf` and `stdOf`.  An error propagates to the caller exactly
when the fallback of `pagerankWithFallback` still errors. -/
def calculate_centrality_distribution (entropyOf stdOf : List ℚ → ℚ) (g : DiGraph)
    (pagerank_weighted pagerank_unweighted : Except String (List ℚ)) :
    Except String CentralityResult :=
  if g.nodes.length = 0 then
    .ok
      { average_degree_centrality := 0
        pagerank_entropy := 0
        centrality_distribution_stats := { mean := 0, std := 0, max := 0, min := 0 } }
  else
    (pagerankWithFallback pagerank_weighted pagerank_unweighted).map
      fun pagerank_values =>
        { average_degree_centrality := listMean (g.nodes.map (degree_centrality g))
          pagerank_entropy := entropyOf pagerank_values
          centrality_distribution_stats :=
            { mean := listMean pagerank_values
              std := stdOf pagerank_values
              max := listMax pagerank_values
              min := listMin pagerank_values } }

/-- `StructuralIntegrityEvaluator.evaluate`: the empty-graph contract when the
`KnowledgeGraph` has no entities or no relationships, otherwise the metrics
computed over the built graph.  The external pagerank calls are abstracted as
the functions `pagerank_weighted`/`pagerank_unweighted` of the built graph;
an `Except.error` models an exception propagating to the caller. -/
def evaluate (entropyOf stdOf : List ℚ → ℚ)
    (pagerank_weighted pagerank_unweighted : DiGraph → Except String (List ℚ))
    (kg : KnowledgeGraph) : Except String StructuralMetrics :=
  if kg.entities.isEmpty || kg.relationships.isEmpty then .ok empty_graph_metrics
  else
    let graph := build_networkx_graph kg
    let conn := calculate_connectedness graph
    (calculate_centrality_distribution entropyOf stdOf graph
        (pagerank_weighted graph) (pagerank_unweighted graph)).map
      fun cent =>
        { graph_density := calculate_graph_density kg
          largest_connected_component_ratio := conn.largest_connected_component_ratio
          singleton_ratio := conn.singleton_ratio
          connected_components_count := conn.connected_components_count
          average_degree_centrality := cent.average_degree_centrality
          pagerank_entropy := cent.pagerank_entropy
          centrality_distribution_stats := cent.centrality_distribution_stats }

end StructuralIntegrityEvaluator

end KGEval

open KGEval KGEval.SemanticQualityEvaluator KGEval.StructuralIntegrityEvaluator

/-! ## Concrete inputs used by the witness and counterexample theorems -/

/-- A trivial stand-in for the external float statistics (entropy / std). -/
def zeroStat (_ : List ℚ) : ℚ := 0

/-- A stand-in for a successful external `nx.pagerank` call: the uniform
distribution over the graph's nodes. -/
def uniformPagerank (g : DiGraph) : Except String (List ℚ) :=
  .ok (g.nodes.map fun _ => 1 / g.nodes.length)

/-- The empty knowledge graph. -/
def kgEmptyGraph : KnowledgeGraph :=
  { entities := [], relationships := [], source_texts := [] }

/-- Two isolated entities, no relationships. -/
def kgTwoIsolated : KnowledgeGraph :=
  { entities := [⟨"A",none,none⟩, ⟨"B",none,none⟩], relationships := [], source_texts := [] }

/-- One entity, nothing else. -/
def kgOneEntity : KnowledgeGraph :=
  { entities := [⟨"Solo", none, none⟩], relationships := [], source_texts := [] }

/-- Two relationships sharing the `("A", "B")` pair; the second carries an
explicit weight of `0.0`. -/
def kgDup : KnowledgeGraph :=
  { entities := [⟨"A",none,none⟩, ⟨"B",none,none⟩]
    relationships := [⟨"A","B","first",none,some 2⟩, ⟨"A","B","second",none,some 0⟩]
    source_texts := [] }

/-- The earlier of two source texts linking the `("A", "B")` edge. -/
def stFirst : SourceText := ⟨"passage one", [], [("A","B")]⟩

/-- The later of two source texts linking the `("A", "B")` edge. -/
def stSecond : SourceText := ⟨"passage two", [], [("A","B")]⟩

/-- One relationship whose `("A", "B")` pair is linked by two source texts. -/
def kgTwoSources : KnowledgeGraph :=
  { entities := [⟨"A",none,none⟩, ⟨"B",none,none⟩]
    relationships := [⟨"A","B","d",none,none⟩]
    source_texts := [stFirst, stSecond] }

/-! ## Helper lemmas -/

/-- Looking up after an `addEdgeList` insertion: the inserted key maps to the
new attributes, every other key is untouched. -/
theorem lookupEdge_addEdgeList (es : List ((String × String) × EdgeData))
    (k : String × String) (d : EdgeData) (q : String × String) :
    lookupEdge (addEdgeList es k d) q = if k = q then some d else lookupEdge es q := by
  induction es with
  | nil => simp [addEdgeList, lookupEdge]
  | cons hd rest ih =>
    obtain ⟨k', d'⟩ := hd
    by_cases hk : k' = k
    · subst hk
      by_cases hq : k' = q <;> simp [addEdgeList, lookupEdge, hq]
    · by_cases hq : k' = q
      · subst hq
        have : k ≠ k' := fun h => hk h.symm
        simp [addEdgeList, lookupEdge, hk, this]
      · simp [addEdgeList, lookupEdge, hk, hq, ih]

-- H2

/-- The edge list of the built graph is the fold of `addEdgeList` over the
relationships. -/
theorem build_edges_foldl (rels : List Relationship) (g : DiGraph) :
    (rels.foldl addEdge g).edges =
      rels.foldl (fun es r => addEdgeList es (relPair r) (relationshipEdgeData r)) g.edges := by
  induction rels generalizing g with
  | nil => rfl
  | cons r rest ih => simp [List.foldl_cons, ih, addEdge, relPair]

-- H3

/-- Folding `addEdgeList` over relationships realises last-write-wins: a key's
final attributes come from the last relationship with that key. -/
theorem lookupEdge_foldl (q : String × String) :
    ∀ (rels : List Relationship) (es0 : List ((String × String) × EdgeData)),
    lookupEdge (rels.foldl (fun es r => addEdgeList es (relPair r) (relationshipEdgeData r)) es0) q =
      (rels.reverse.find? (fun r => decide (relPair r = q))).elim (lookupEdge es0 q)
        (fun r => some (relationshipEdgeData r))
  | [], es0 => by simp
  | r :: rest, es0 => by
    rw [List.foldl_cons, lookupEdge_foldl q rest, List.reverse_cons, List.find?_append]
    rcases hfind : rest.reverse.find? (fun r2 => decide (relPair r2 = q)) with _ | r'
    · by_cases hq : relPair r = q <;>
        simp [hq, lookupEdge_addEdgeList, Option.orElse, List.find?]
    · simp [Option.orElse]

-- H4

/-- Edge lookup in the built graph: the attributes of the last relationship in
list order with the queried `(source, target)` pair. -/
theorem lookupEdge_build (kg : KnowledgeGraph) (q : String × String) :
    lookupEdge (build_networkx_graph kg).edges q =
      (kg.relationships.reverse.find? (fun r => decide (relPair r = q))).map
        relationshipEdgeData := by
  rw [build_networkx_graph, build_edges_foldl, lookupEdge_foldl]
  rcases kg.relationships.reverse.find? (fun r => decide (relPair r = q)) with _ | r <;>
    simp [lookupEdge]

-- H5: key membership

/-- Key membership after an `addEdgeList` insertion. -/
theorem mem_keys_addEdgeList (es : List ((String × String) × EdgeData))
    (k : String × String) (d : EdgeData) (q : String × String) :
    q ∈ (addEdgeList es k d).map Prod.fst ↔ q = k ∨ q ∈ es.map Prod.fst := by
  induction es with
  | nil => simp [addEdgeList]
  | cons hd rest ih =>
    obtain ⟨k', d'⟩ := hd
    by_cases hk : k' = k
    · subst hk
      simp [addEdgeList]
    · simp [addEdgeList, hk, ih]
      tauto

-- H6: nodup preserved

/-- `addEdgeList` keeps the edge keys duplicate-free. -/
theorem nodup_keys_addEdgeList (es : List ((String × String) × EdgeData))
    (k : String × String) (d : EdgeData) (h : (es.map Prod.fst).Nodup) :
    ((addEdgeList es k d).map Prod.fst).Nodup := by
  induction es with
  | nil => simp [addEdgeList]
  | cons hd rest ih =>
    obtain ⟨k', d'⟩ := hd
    simp only [List.map_cons, List.nodup_cons] at h
    by_cases hk : k' = k
    · subst hk
      simpa [addEdgeList] using h
    · simp only [addEdgeList, if_neg hk, List.map_cons, List.nodup_cons]
      refine ⟨fun hmem => ?_, ih h.2⟩
      rcases (mem_keys_addEdgeList rest k d k').mp hmem with h' | h'
      · exact hk h'
      · exact h.1 h'

-- H7: build graph keys nodup

/-- Folding `addEdgeList` keeps the edge keys duplicate-free. -/
theorem nodup_keys_foldl (rels : List Relationship) :
    ∀ (es0 : List ((String × String) × EdgeData)), (es0.map Prod.fst).Nodup →
      ((rels.foldl (fun es r => addEdgeList es (relPair r) (relationshipEdgeData r)) es0).map
        Prod.fst).Nodup := by
  induction rels with
  | nil => intro es0 h; simpa using h
  | cons r rest ih =>
    intro es0 h
    exact ih _ (nodup_keys_addEdgeList es0 _ _ h)

/-- The built graph has duplicate-free edge keys: at most one edge per
`(source, target)` pair. -/
theorem nodup_keys_build (kg : KnowledgeGraph) :
    (((build_networkx_graph kg).edges).map Prod.fst).Nodup := by
  rw [build_networkx_graph, build_edges_foldl]
  exact nodup_keys_foldl _ _ (by simp)

/-- A relationship found by `find_matching_relationship` matches the edge's
source and target. -/
theorem find_matching_pair {rels : List Relationship} {e : String × String} {r' : Relationship}
    (h : find_matching_relationship rels e = some r') :
    r'.source_entity_name = e.1 ∧ r'.target_entity_name = e.2 := by
  have hp := List.find?_some h
  simp only [Bool.and_eq_true, beq_iff_eq] at hp
  exact hp

/-- The inner edge loop of `_map_relationships_to_sources`, evaluated at the
key of a relationship `r` that is the first match for its own pair: the dict
entry becomes the current source text exactly when the pair occurs among the
edges processed. -/
theorem inner_fold_at (kg : KnowledgeGraph) (r : Relationship)
    (hfind : find_matching_relationship kg.relationships (relPair r) = some r)
    (st : SourceText) :
    ∀ (es : List (String × String)) (acc : String × String × String → Option SourceText),
    (es.foldl
        (fun acc2 edge =>
          match find_matching_relationship kg.relationships edge with
          | none => acc2
          | some r' => fun k => if k = relKey r' then some st else acc2 k)
        acc) (relKey r) =
      if relPair r ∈ es then some st else acc (relKey r)
  | [], acc => by simp
  | e :: rest, acc => by
    rw [List.foldl_cons, inner_fold_at kg r hfind st rest]
    by_cases he : relPair r ∈ rest
    · simp [he]
    · by_cases heq : e = relPair r
      · subst heq
        simp [he, hfind]
      · have hne' : ¬ relPair r = e := fun h => heq h.symm
        rcases hmatch : find_matching_relationship kg.relationships e with _ | r'
        · simp [hmatch, he, hne']
        · have hp := find_matching_pair hmatch
          have hk : relKey r ≠ relKey r' := by
            intro hkey
            have h1 := congrArg Prod.fst hkey
            have h2 := congrArg (fun p => p.2.1) hkey
            simp only [relKey] at h1 h2
            apply hne'
            rw [Prod.ext_iff]
            exact ⟨h1.trans hp.1, h2.trans hp.2⟩
          simp [hmatch, he, hne', hk]

/-- The outer source-text loop of `_map_relationships_to_sources`: the entry
for `r`'s key ends up at the last source text whose `linked_edges` contains
`r`'s pair (`find?` over the reversed list). -/
theorem outer_fold_at (kg : KnowledgeGraph) (r : Relationship)
    (hfind : find_matching_relationship kg.relationships (relPair r) = some r) :
    ∀ (sts : List SourceText) (acc : String × String × String → Option SourceText),
    (sts.foldl
        (fun acc source_text =>
          source_text.linked_edges.foldl
            (fun acc2 edge =>
              match find_matching_relationship kg.relationships edge with
              | none => acc2
              | some r' => fun k => if k = relKey r' then some source_text else acc2 k)
            acc)
        acc) (relKey r) =
      (sts.reverse.find? (fun st => decide (relPair r ∈ st.linked_edges))).elim
        (acc (relKey r)) some
  | [], acc => by simp
  | st :: rest, acc => by
    rw [List.foldl_cons, outer_fold_at kg r hfind rest, List.reverse_cons, List.find?_append]
    rcases hfound : rest.reverse.find? (fun st2 => decide (relPair r ∈ st2.linked_edges))
      with _ | st'
    · by_cases hmem : relPair r ∈ st.linked_edges <;>
        simp [hfound, hmem, inner_fold_at kg r hfind st, List.find?]
    · simp [hfound, inner_fold_at kg r hfind st]

/-- `StructuralIntegrityEvaluator.evaluate` returns the empty-graph metrics
whenever the graph has no entities or no relationships. -/
theorem evaluate_of_empty (entropyOf stdOf : List ℚ → ℚ)
    (pw pu : DiGraph → Except String (List ℚ)) (kg : KnowledgeGraph)
    (h : kg.entities = [] ∨ kg.relationships = []) :
    StructuralIntegrityEvaluator.evaluate entropyOf stdOf pw pu kg =
      .ok empty_graph_metrics := by
  rcases h with h | h <;> simp [StructuralIntegrityEvaluator.evaluate, h]

/-- `pair_scan` is the threshold filter of the full discovery enumeration. -/
theorem pair_scan_eq_filter (threshold : ℚ) (names : List String) :
    pair_scan threshold names =
      (discovered_pairs names).filter (fun p => threshold ≤ p.2.2) := by
  induction names with
  | nil => rfl
  | cons name1 rest ih =>
    simp [pair_scan, discovered_pairs, List.filter_append, ih]

/-- Stability of `orderedInsert`, inserted element at similarity `c`: it lands
in front of the existing elements of similarity `c`. -/
theorem orderedInsert_filter_of_eq (c : ℚ) (x : String × String × ℚ) (hx : x.2.2 = c) :
    ∀ l : List (String × String × ℚ),
      (l.orderedInsert simGE x).filter (fun p => decide (p.2.2 = c)) =
        x :: l.filter (fun p => decide (p.2.2 = c))
  | [] => by simp [List.orderedInsert, hx]
  | y :: ys => by
    by_cases h : simGE x y
    · simp [List.orderedInsert, h, hx]
    · have hy : y.2.2 ≠ c := by
        intro hc
        exact h (by simp [simGE, hc, hx.symm.le])
      rw [List.orderedInsert, if_neg h]
      simp [hy, orderedInsert_filter_of_eq c x hx ys]

/-- Stability of `orderedInsert`, inserted element not at similarity `c`: the
subsequence at similarity `c` is unchanged. -/
theorem orderedInsert_filter_of_ne (c : ℚ) (x : String × String × ℚ) (hx : x.2.2 ≠ c) :
    ∀ l : List (String × String × ℚ),
      (l.orderedInsert simGE x).filter (fun p => decide (p.2.2 = c)) =
        l.filter (fun p => decide (p.2.2 = c))
  | [] => by simp [List.orderedInsert, hx]
  | y :: ys => by
    by_cases h : simGE x y
    · simp [List.orderedInsert, h, hx]
    · rw [List.orderedInsert, if_neg h]
      by_cases hy : y.2.2 = c <;>
        simp [hy, orderedInsert_filter_of_ne c x hx ys]

/-- Stability of the insertion sort used for `find_potential_aliases`: for
every similarity value `c`, the elements of similarity `c` appear in the
sorted output in exactly their input order. -/
theorem insertionSort_filter_sim (c : ℚ) :
    ∀ l : List (String × String × ℚ),
      (l.insertionSort simGE).filter (fun p => decide (p.2.2 = c)) =
        l.filter (fun p => decide (p.2.2 = c))
  | [] => rfl
  | x :: xs => by
    rw [List.insertionSort]
    by_cases hx : x.2.2 = c
    · rw [orderedInsert_filter_of_eq c x hx, insertionSort_filter_sim c xs]
      simp [hx]
    · rw [orderedInsert_filter_of_ne c x hx, insertionSort_filter_sim c xs]
      simp [hx]

/-! ## The claims -/

/-- C1, counterexample.  The claim says the first matching source text wins in
`_map_relationships_to_sources`; on a relationship whose pair is linked by two
source texts, the dict resolves it to the second (later) one, not the
first. -/
theorem C1_counterexample :
    map_relationships_to_sources kgTwoSources ("A","B","d") = some stSecond ∧
      map_relationships_to_sources kgTwoSources ("A","B","d") ≠ some stFirst := by
  constructor <;> with_unfolding_all decide

/-- C1, amended: in the Semantic-Quality Orchestrator's mapping of
relationships to source passages, a relationship that is the first
relationship in `kg.relationships` with its `(source, target)` pair is
resolved to the LAST source text in `kg.source_texts` list order whose
`linked_edges` contains that pair (later source texts overwrite earlier ones
in the dict). -/
theorem C1_last_source_wins (kg : KnowledgeGraph) (r : Relationship)
    (hfind : find_matching_relationship kg.relationships (relPair r) = some r) :
    map_relationships_to_sources kg (relKey r) =
      kg.source_texts.reverse.find? (fun st => decide (relPair r ∈ st.linked_edges)) := by
  rw [map_relationships_to_sources, outer_fold_at kg r hfind]
  rcases h : kg.source_texts.reverse.find? (fun st => decide (relPair r ∈ st.linked_edges))
    with _ | st <;> simp [h]

/-- C1, witness: the amended theorem applied to the concrete two-source-text
graph. -/
theorem C1_witness :
    map_relationships_to_sources kgTwoSources ("A","B","d") =
      kgTwoSources.source_texts.reverse.find?
        (fun st => decide (("A","B") ∈ st.linked_edges)) :=
  C1_last_source_wins kgTwoSources ⟨"A","B","d",none,none⟩ (by with_unfolding_all decide)

/-- C2, counterexample.  The claim says that for N ≥ 1 isolated entities the
engine reports LCC ratio 1/N; on two isolated entities the evaluator takes the
empty-graph branch (no relationships) and reports LCC ratio 0, not 1/2. -/
theorem C2_counterexample :
    StructuralIntegrityEvaluator.evaluate zeroStat zeroStat uniformPagerank uniformPagerank
        kgTwoIsolated = .ok empty_graph_metrics ∧
      empty_graph_metrics.largest_connected_component_ratio ≠ 1 / 2 := by
  constructor
  · with_unfolding_all decide
  · with_unfolding_all decide

/-- C2, amended: for every KnowledgeGraph with N ≥ 1 entities and an empty
relationship list, the Structural Metrics Engine reports `singleton_ratio =
1.0` and `largest_connected_component_ratio = 0.0` (the empty-graph contract
applies because the relationship list is empty). -/
theorem C2_isolated_entities (entropyOf stdOf : List ℚ → ℚ)
    (pw pu : DiGraph → Except String (List ℚ)) (kg : KnowledgeGraph)
    (_hN : 1 ≤ kg.entities.length) (h : kg.relationships = []) :
    (StructuralIntegrityEvaluator.evaluate entropyOf stdOf pw pu kg).map
        StructuralMetrics.singleton_ratio = .ok 1 ∧
      (StructuralIntegrityEvaluator.evaluate entropyOf stdOf pw pu kg).map
        StructuralMetrics.largest_connected_component_ratio = .ok 0 := by
  rw [evaluate_of_empty entropyOf stdOf pw pu kg (Or.inr h)]
  exact ⟨rfl, rfl⟩

/-- C2, witness: the amended theorem applied to two isolated entities. -/
theorem C2_isolated_entities_witness :
    (StructuralIntegrityEvaluator.evaluate zeroStat zeroStat uniformPagerank uniformPagerank
        kgTwoIsolated).map StructuralMetrics.singleton_ratio = .ok 1 ∧
      (StructuralIntegrityEvaluator.evaluate zeroStat zeroStat uniformPagerank uniformPagerank
        kgTwoIsolated).map StructuralMetrics.largest_connected_component_ratio = .ok 0 :=
  C2_isolated_entities zeroStat zeroStat uniformPagerank uniformPagerank kgTwoIsolated
    (by decide) rfl

/-- C3: for every KnowledgeGraph with zero entities or zero relationships, the
Structural Metrics Engine returns (does not raise) the fixed empty-graph
result: density 0.0, LCC ratio 0.0, singleton ratio 1.0, component count 0,
average degree centrality 0.0, PageRank entropy 0.0 and centrality stats all
0.0. -/
theorem C3_empty_graph_contract (entropyOf stdOf : List ℚ → ℚ)
    (pw pu : DiGraph → Except String (List ℚ)) (kg : KnowledgeGraph)
    (h : kg.entities = [] ∨ kg.relationships = []) :
    StructuralIntegrityEvaluator.evaluate entropyOf stdOf pw pu kg =
      .ok
        { graph_density := 0
          largest_connected_component_ratio := 0
          singleton_ratio := 1
          connected_components_count := 0
          average_degree_centrality := 0
          pagerank_entropy := 0
          centrality_distribution_stats := { mean := 0, std := 0, max := 0, min := 0 } } := by
  rw [evaluate_of_empty entropyOf stdOf pw pu kg h]
  rfl

/-- C3, witness: the empty-graph contract evaluated on the empty
KnowledgeGraph. -/
theorem C3_witness :
    StructuralIntegrityEvaluator.evaluate zeroStat zeroStat uniformPagerank uniformPagerank
        kgEmptyGraph =
      .ok
        { graph_density := 0
          largest_connected_component_ratio := 0
          singleton_ratio := 1
          connected_components_count := 0
          average_degree_centrality := 0
          pagerank_entropy := 0
          centrality_distribution_stats := { mean := 0, std := 0, max := 0, min := 0 } } :=
  C3_empty_graph_contract zeroStat zeroStat uniformPagerank uniformPagerank kgEmptyGraph
    (Or.inl rfl)

/-- C4: the Graph Builder produces at most one edge per `(source, target)`
pair (the edge keys are duplicate-free), and the edge stored for a pair
carries the description, keywords and weight attributes of the LAST
relationship with that pair in `kg.relationships` list order (last-write-wins,
no aggregation). -/
theorem C4_last_write_wins (kg : KnowledgeGraph) :
    (((build_networkx_graph kg).edges).map Prod.fst).Nodup ∧
    ∀ q : String × String,
      lookupEdge (build_networkx_graph kg).edges q =
        (kg.relationships.reverse.find? (fun r => decide (relPair r = q))).map
          relationshipEdgeData :=
  ⟨nodup_keys_build kg, fun q => lookupEdge_build kg q⟩

/-- C5: the entity normalization score equals
`max 0 (1 - alias_pair_count / entity_count)` for every graph with at least
one entity, equals exactly 1 whenever the graph has 0 or 1 entities, and lies
in [0, 1] for every graph with at least one entity. -/
theorem C5_normalization_score (threshold : ℚ) (kg : KnowledgeGraph) :
    (1 ≤ kg.entities.length →
      (calculate_entity_normalization_score threshold kg).entity_normalization_score =
        max 0 (1 -
          ((calculate_entity_normalization_score threshold kg).alias_pairs_count : ℚ) /
            kg.entities.length)) ∧
    (kg.entities.length ≤ 1 →
      (calculate_entity_normalization_score threshold kg).entity_normalization_score = 1) ∧
    (1 ≤ kg.entities.length →
      0 ≤ (calculate_entity_normalization_score threshold kg).entity_normalization_score ∧
      (calculate_entity_normalization_score threshold kg).entity_normalization_score ≤ 1) := by
  by_cases hle : kg.entities.length ≤ 1
  · refine ⟨fun h1 => ?_, fun _ => ?_, fun h1 => ?_⟩
    · have hlen : kg.entities.length = 1 := le_antisymm hle h1
      simp [calculate_entity_normalization_score, hle, hlen]
    · simp [calculate_entity_normalization_score, hle]
    · simp [calculate_entity_normalization_score, hle]
  · have hpos : (0 : ℚ) < kg.entities.length := by
      have : 1 ≤ kg.entities.length := le_of_not_le hle |>.trans' (by norm_num)
      exact_mod_cast Nat.lt_of_lt_of_le Nat.zero_lt_one this
    refine ⟨fun _ => ?_, fun h => absurd h hle, fun _ => ⟨?_, ?_⟩⟩
    · simp [calculate_entity_normalization_score, hle]
    · simp [calculate_entity_normalization_score, hle]
    · simp only [calculate_entity_normalization_score, hle, if_neg hle]
      apply max_le (by norm_num)
      have hnn : (0 : ℚ) ≤
          ((find_potential_aliases threshold
            (kg.entities.map (·.entity_name))).length : ℚ) / kg.entities.length :=
        div_nonneg (by positivity) (le_of_lt hpos)
      linarith

/-- C5, witness: the three parts evaluated on a one-entity graph, where all
hypotheses hold at once. -/
theorem C5_normalization_score_witness :
    ((calculate_entity_normalization_score (7/10) kgOneEntity).entity_normalization_score =
        max 0 (1 -
          ((calculate_entity_normalization_score (7/10) kgOneEntity).alias_pairs_count : ℚ) /
            kgOneEntity.entities.length)) ∧
      ((calculate_entity_normalization_score (7/10) kgOneEntity).entity_normalization_score =
        1) ∧
      (0 ≤ (calculate_entity_normalization_score (7/10)
          kgOneEntity).entity_normalization_score ∧
        (calculate_entity_normalization_score (7/10)
          kgOneEntity).entity_normalization_score ≤ 1) :=
  ⟨(C5_normalization_score (7/10) kgOneEntity).1 (by decide),
    (C5_normalization_score (7/10) kgOneEntity).2.1 (by decide),
    (C5_normalization_score (7/10) kgOneEntity).2.2 (by decide)⟩

/-- C6: the alias-detection similarity returns 1.0 on every pair `(a, a)`
whose normalised form is non-empty, and 0.0 whenever either raw input string
is empty — including the pair `("", "")`. -/
theorem C6_similarity_diagonal_and_empty :
    (∀ a : String, normalized a ≠ [] → calculate_string_similarity a a = 1) ∧
      (∀ a b : String, a = "" ∨ b = "" → calculate_string_similarity a b = 0) ∧
      calculate_string_similarity "" "" = 0 := by
  refine ⟨fun a ha => ?_, fun a b hab => ?_, ?_⟩
  · have hne : a ≠ "" := fun h => ha (by rw [h]; rfl)
    simp [calculate_string_similarity, hne]
  · simp [calculate_string_similarity, hab]
  · simp [calculate_string_similarity]

/-- C6, witness: the similarity evaluated at `("Apple", "Apple")`,
`("", "banana")` and `("", "")`. -/
theorem C6_similarity_witness :
    (normalized "Apple" ≠ [] ∧ calculate_string_similarity "Apple" "Apple" = 1) ∧
      calculate_string_similarity "" "banana" = 0 ∧
      calculate_string_similarity "" "" = 0 :=
  ⟨⟨by with_unfolding_all decide,
      C6_similarity_diagonal_and_empty.1 "Apple" (by with_unfolding_all decide)⟩,
    C6_similarity_diagonal_and_empty.2.1 "" "banana" (Or.inl rfl),
    C6_similarity_diagonal_and_empty.2.2⟩

/-- C7: alias detection retains exactly the discovered pairs whose similarity
is ≥ the threshold (the boundary similarity = threshold included), returns
them sorted descending by similarity, and keeps ties in pair-discovery order
(for each similarity value, the retained subsequence equals the pre-sort
discovery-order subsequence). -/
theorem C7_threshold_and_stable_sort (threshold : ℚ) (entity_names : List String) :
    (∀ p, p ∈ find_potential_aliases threshold entity_names ↔
        p ∈ discovered_pairs entity_names ∧ threshold ≤ p.2.2) ∧
      (find_potential_aliases threshold entity_names).Sorted simGE ∧
      (∀ c : ℚ, (find_potential_aliases threshold entity_names).filter
            (fun p => decide (p.2.2 = c)) =
          (pair_scan threshold entity_names).filter (fun p => decide (p.2.2 = c))) := by
  refine ⟨fun p => ?_, ?_, fun c => ?_⟩
  · rw [find_potential_aliases, List.mem_insertionSort, pair_scan_eq_filter,
      List.mem_filter]
    simp
  · exact List.sorted_insertionSort simGE (pair_scan threshold entity_names)
  · exact insertionSort_filter_sim c (pair_scan threshold entity_names)

/-- C7, witness: a pair whose similarity is exactly the 0.7 threshold (edit
distance 3 over normalised length 10) is retained. -/
theorem C7_boundary_witness :
    ("abcdefghij", "abcdefgXYZ", (7/10 : ℚ)) ∈
      find_potential_aliases (7/10) ["abcdefghij", "abcdefgXYZ"] :=
  ((C7_threshold_and_stable_sort (7/10) ["abcdefghij", "abcdefgXYZ"]).1 _).mpr
    ⟨by with_unfolding_all decide, by with_unfolding_all decide⟩

/-- C8: in the centrality computation, a weighted-PageRank failure is retried
with unweighted PageRank before any error reaches the caller; an error
propagates exactly when both attempts fail, and it is the unweighted
attempt's error. -/
theorem C8_pagerank_fallback (entropyOf stdOf : List ℚ → ℚ) (g : DiGraph)
    (w u : Except String (List ℚ)) :
    (∀ e, calculate_centrality_distribution entropyOf stdOf g w u = .error e →
        (∃ e1, w = .error e1) ∧ u = .error e) ∧
      (∀ v, w = .ok v →
        ∃ m, calculate_centrality_distribution entropyOf stdOf g w u = .ok m) ∧
      (∀ e1 v, w = .error e1 → u = .ok v →
        ∃ m, calculate_centrality_distribution entropyOf stdOf g w u = .ok m) := by
  refine ⟨fun e he => ?_, fun v hv => ?_, fun e1 v hv1 hv2 => ?_⟩
  · by_cases hg : g.nodes.length = 0
    · simp [calculate_centrality_distribution, hg] at he
    · rcases hw : w with e1 | v1
      · rcases hu : u with e2 | v2
        · subst hw; subst hu
          simp [calculate_centrality_distribution, hg, pagerankWithFallback,
            Except.map] at he
          exact ⟨⟨e1, rfl⟩, by rw [he]⟩
        · subst hw; subst hu
          simp [calculate_centrality_distribution, hg, pagerankWithFallback,
            Except.map] at he
      · subst hw
        simp [calculate_centrality_distribution, hg, pagerankWithFallback,
          Except.map] at he
  · rcases h : calculate_centrality_distribution entropyOf stdOf g w u with e | m
    · exfalso
      subst hv
      by_cases hg : g.nodes.length = 0
      · simp [calculate_centrality_distribution, hg] at h
      · simp [calculate_centrality_distribution, hg, pagerankWithFallback,
          Except.map] at h
    · exact ⟨m, rfl⟩
  · rcases h : calculate_centrality_distribution entropyOf stdOf g w u with e | m
    · exfalso
      subst hv1; subst hv2
      by_cases hg : g.nodes.length = 0
      · simp [calculate_centrality_distribution, hg] at h
      · simp [calculate_centrality_distribution, hg, pagerankWithFallback,
          Except.map] at h
    · exact ⟨m, rfl⟩

/-- C8, witness: the fallback succeeds when the weighted attempt errors and
the unweighted attempt returns scores. -/
theorem C8_pagerank_fallback_witness :
    ∃ m, calculate_centrality_distribution zeroStat zeroStat
        (build_networkx_graph kgTwoSources) (.error "weighted pagerank failed")
        (.ok [1/2, 1/2]) = .ok m :=
  (C8_pagerank_fallback zeroStat zeroStat (build_networkx_graph kgTwoSources)
      (.error "weighted pagerank failed") (.ok [1/2, 1/2])).2.2
    "weighted pagerank failed" [1/2, 1/2] rfl rfl

/-- C9: with no referee capability, the Semantic-Quality evaluator reports
both `factual_precision` and `contextual_relevance` as the explicit `None`
marker with the explanation string `"LLM referee not provided"`, and never as
any numeric value — in particular never 0.0. -/
theorem C9_no_referee (threshold : ℚ) (refereeResults : KnowledgeGraph → RefereeOutputs)
    (kg : KnowledgeGraph) :
    (SemanticQualityEvaluator.evaluate threshold refereeResults false kg).factual_precision =
        none ∧
      (SemanticQualityEvaluator.evaluate threshold refereeResults false
          kg).factual_precision_details = "LLM referee not provided" ∧
      (SemanticQualityEvaluator.evaluate threshold refereeResults false
          kg).contextual_relevance = none ∧
      (SemanticQualityEvaluator.evaluate threshold refereeResults false
          kg).contextual_relevance_details = "LLM referee not provided" ∧
      ∀ q : ℚ,
        (SemanticQualityEvaluator.evaluate threshold refereeResults false
            kg).factual_precision ≠ some q ∧
          (SemanticQualityEvaluator.evaluate threshold refereeResults false
            kg).contextual_relevance ≠ some q := by
  refine ⟨rfl, rfl, rfl, rfl, fun q => ⟨?_, ?_⟩⟩ <;>
    simp [SemanticQualityEvaluator.evaluate]

/-- C10: in the Graph Builder, a relationship whose weight is explicitly
`0.0` — or absent — produces an edge of weight 1.0, because the edge weight
is `relationship.weight or 1.0` and both values are falsy. -/
theorem C10_falsy_weight (kg : KnowledgeGraph) (q : String × String) (r : Relationship)
    (hlast : kg.relationships.reverse.find? (fun r2 => decide (relPair r2 = q)) = some r)
    (hw : r.weight = none ∨ r.weight = some 0) :
    (lookupEdge (build_networkx_graph kg).edges q).map EdgeData.weight = some 1 := by
  rw [lookupEdge_build, hlast]
  rcases hw with hw | hw <;>
    simp [relationshipEdgeData, weightOrOne, hw]

/-- C10, witness: the duplicate-pair graph whose last `("A", "B")`
relationship has weight `0.0` stores edge weight 1. -/
theorem C10_witness :
    (lookupEdge (build_networkx_graph kgDup).edges ("A","B")).map EdgeData.weight = some 1 :=
  C10_falsy_weight kgDup ("A","B") ⟨"A","B","second",none,some 0⟩
    (by with_unfolding_all decide) (Or.inr rfl)
